import Mathlib

/-!
Shallow embedding of the rauthy frontend account-recovery / passkey-enrollment
flow (frontend/src/lib/search/OrderBy.svelte, second document: the
password-reset page script) and of the admin event-stream viewer.

Pure functions of the source become Lean functions; the stateful page script
becomes explicit state passing over a `PageState` record, with the network
boundary abstracted as a response environment and the list of performed
network calls returned alongside the new state.

Helper functions imported by the page from `utils/helpers.js`
(`generatePassword`, `arrBufToBase64UrlSafe`, `base64UrlSafeToArrBuf`) and the
policy validation of `PasswordPolicy.svelte` are not part of the examined
sources; they are modelled from the specification and marked as such.
-/

namespace Rauthy

/-! ## Text-safe binary encoding (base64 url-safe)

Modelled from the spec: `arrBufToBase64UrlSafe` / `base64UrlSafeToArrBuf`
from `utils/helpers.js` are not in the examined sources.  The spec describes
them as a reversible mapping of raw binary data into URL/JSON-safe characters
(glossary: "Text-safe binary encoding"), i.e. unpadded base64url (RFC 4648
alphabet with `-` and `_`).  Bytes are `Nat` values `< 256`; 6-bit groups are
`Nat` values `< 64`. -/

/-- Modelled from the spec: the base64url alphabet used by the text-safe
binary encoding. -/
def b64Alphabet : List Char :=
  "ABCDEFGHIJKLMNOPQRSTUVWXYZabcdefghijklmnopqrstuvwxyz0123456789-_".data

/-- 6-bit value to alphabet character. -/
def valToB64Char (v : Nat) : Char := b64Alphabet.getD v 'A'

/-- Alphabet character back to its 6-bit value (index in the alphabet). -/
def b64CharVal (c : Char) : Nat := b64Alphabet.indexOf c

/-- Byte list to 6-bit groups, processing three bytes into four groups,
with the usual shortened final group for a remainder of one or two bytes. -/
def bytesToB64 : List Nat → List Nat
  | [] => []
  | [a] => [a / 4, a % 4 * 16]
  | [a, b] => [a / 4, a % 4 * 16 + b / 16, b % 16 * 4]
  | a :: b :: c :: rest =>
    a / 4 :: (a % 4 * 16 + b / 16) :: (b % 16 * 4 + c / 64) :: c % 64 :: bytesToB64 rest

/-- 6-bit groups back to bytes; a dangling single group carries fewer than
8 bits and yields no byte. -/
def b64ToBytes : List Nat → List Nat
  | [] => []
  | [_] => []
  | [w, x] => [w * 4 + x / 16]
  | [w, x, y] => [w * 4 + x / 16, x % 16 * 16 + y / 4]
  | w :: x :: y :: z :: rest =>
    (w * 4 + x / 16) :: (x % 16 * 16 + y / 4) :: (y % 4 * 64 + z) :: b64ToBytes rest

/-- Modelled from the spec: encode a raw byte buffer to a text-safe string
(`arrBufToBase64UrlSafe` of `utils/helpers.js`). -/
def arrBufToBase64UrlSafe (bytes : List Nat) : String :=
  String.mk ((bytesToB64 bytes).map valToB64Char)

/-- Modelled from the spec: decode a text-safe string back to raw bytes
(`base64UrlSafeToArrBuf` of `utils/helpers.js`). -/
def base64UrlSafeToArrBuf (s : String) : List Nat :=
  b64ToBytes (s.data.map b64CharVal)

/-! ## Password policy and generator

`PasswordPolicy` mirrors the record built in `onMount` from the page-embedded
`rauthy-data` values (OrderBy.svelte).  Length bounds are the parsed numeric
fields; the four class fields are "boolean-as-count" integers (a class is
required when its count is positive).

The policy validation of `PasswordPolicy.svelte` and the `generatePassword`
helper of `utils/helpers.js` are not in the examined sources and are modelled
from the spec (section 4.1). -/

structure PasswordPolicy where
  length_min : Nat
  length_max : Nat
  include_lower_case : Int
  include_upper_case : Int
  include_digits : Int
  include_special : Int
  not_recently_used : Int
deriving DecidableEq

def lowerChars : List Char := "abcdefghijklmnopqrstuvwxyz".data

def upperChars : List Char := "ABCDEFGHIJKLMNOPQRSTUVWXYZ".data

def digitChars : List Char := "0123456789".data

/-- Modelled from the spec: the special-character class; the spec does not
enumerate it, any fixed non-empty set disjoint from the other classes works. -/
def specialChars : List Char := "!$%&*+,-./:;=?@_~".data

/-- Modelled from the spec: one character drawn from a required class
(count > 0), nothing for a class that is not required. -/
def classSeed (count : Int) (chars : List Char) (r : Nat) : List Char :=
  if 0 < count then [chars.getD (r % chars.length) 'a'] else []

/-- Modelled from the spec: the full allowed alphabet, the union of the
required classes. -/
def fullAlphabet (lc uc dg sp : Int) : List Char :=
  (if 0 < lc then lowerChars else []) ++ (if 0 < uc then upperChars else [])
    ++ (if 0 < dg then digitChars else []) ++ (if 0 < sp then specialChars else [])

/-- Fuel-indexed pick-and-remove shuffle driven by the randomness stream
`rand`; `k` is the position in the stream. -/
def shuffleGo (rand : Nat → Nat) : Nat → Nat → List Char → List Char
  | 0, _, l => l
  | _ + 1, _, [] => []
  | n + 1, k, x :: xs =>
    (x :: xs).getD (rand k % (x :: xs).length) 'a' ::
      shuffleGo rand n (k + 1)
        ((x :: xs).take (rand k % (x :: xs).length)
          ++ (x :: xs).drop (rand k % (x :: xs).length + 1))

/-- Modelled from the spec (section 4.1): one character drawn per required
class. -/
def genSeeds (lc uc dg sp : Int) (rand : Nat → Nat) : List Char :=
  classSeed lc lowerChars (rand 0) ++ classSeed uc upperChars (rand 1)
    ++ classSeed dg digitChars (rand 2) ++ classSeed sp specialChars (rand 3)

/-- Modelled from the spec (section 4.1): the remainder up to `len` filled
from the full allowed alphabet. -/
def genFill (len : Nat) (lc uc dg sp : Int) (rand : Nat → Nat) : List Char :=
  (List.range (len - (genSeeds lc uc dg sp rand).length)).map
    (fun i => (fullAlphabet lc uc dg sp).getD
      (rand (4 + i) % (fullAlphabet lc uc dg sp).length) 'a')

/-- Modelled from the spec (section 4.1): characters are drawn independently
per required class, the remainder up to `len` is filled from the full allowed
alphabet, and the result is shuffled.  Randomness is an explicit stream. -/
def genChars (len : Nat) (lc uc dg sp : Int) (rand : Nat → Nat) : List Char :=
  shuffleGo rand (genSeeds lc uc dg sp rand ++ genFill len lc uc dg sp rand).length
    (4 + len) (genSeeds lc uc dg sp rand ++ genFill len lc uc dg sp rand)

/-- Modelled from the spec: `generatePassword` of `utils/helpers.js`. -/
def generatePassword (len : Nat) (lc uc dg sp : Int) (rand : Nat → Nat) : String :=
  String.mk (genChars len lc uc dg sp rand)

inductive PolicyRule where
  | tooShort
  | tooLong
  | missingLower
  | missingUpper
  | missingDigit
  | missingSpecial
deriving DecidableEq

def hasCharFrom (pwd : List Char) (chars : List Char) : Bool :=
  pwd.any (fun c => chars.contains c)

/-- Modelled from the spec (section 4.1): `validate(password, policy)` of the
`PasswordPolicy` component returns the violated rules: length within
`[lengthMin, lengthMax]` and at least one character from each class whose
policy count is positive.  Reuse restriction is server-side and not checked
here. -/
def validatePolicy (pwd : String) (p : PasswordPolicy) : List PolicyRule :=
  (if pwd.length < p.length_min then [PolicyRule.tooShort] else [])
    ++ (if p.length_max < pwd.length then [PolicyRule.tooLong] else [])
    ++ (if 0 < p.include_lower_case ∧ ¬hasCharFrom pwd.data lowerChars then
          [PolicyRule.missingLower] else [])
    ++ (if 0 < p.include_upper_case ∧ ¬hasCharFrom pwd.data upperChars then
          [PolicyRule.missingUpper] else [])
    ++ (if 0 < p.include_digits ∧ ¬hasCharFrom pwd.data digitChars then
          [PolicyRule.missingDigit] else [])
    ++ (if 0 < p.include_special ∧ ¬hasCharFrom pwd.data specialChars then
          [PolicyRule.missingSpecial] else [])

/-! ## Page state and network boundary

Embedding of the password-reset page script (OrderBy.svelte, second
document).  The mutable `$state` bindings become fields of `PageState`; the
i18n lookup `t` becomes an explicit record of the message strings the script
reads; network responses are an explicit environment and every network call
performed is recorded in an output trace. -/

structure FormValues where
  passkeyName : String
  password : String
  passwordConfirm : String
deriving DecidableEq

/-- The i18n messages read by the script (`t.required`, `t.passwordNoMatch`,
`t.mfa.passkeyNameErr`, `t.mfa.errorReg`). -/
structure I18n where
  required : String
  passwordNoMatch : String
  passkeyNameErr : String
  errorReg : String
deriving DecidableEq

/-- Response of `webauthnAuthStart` (the parsed JSON body plus `res.ok`);
only the fields the script reads are modelled.  On the happy path the whole
body is stored into `webauthnData`. -/
structure AuthStartResp where
  ok : Bool
  user_id : String
  message : String
deriving DecidableEq

/-- Response of `resetPassword`: `res.ok`, the `Location` header
(`none` models the absent header, JS `null`), and the error body message. -/
structure ResetResp where
  ok : Bool
  location : Option String
  message : String
deriving DecidableEq

/-- The `publicKey` part of the `webauthnRegStartAccReset` challenge body;
of `user` and of each `excludeCredentials` entry only the binary `id` field
is modelled (the script rewrites exactly those). -/
structure PublicKeyChallenge where
  userVerification : String
  challenge : String
  userId : String
  excludeCredentials : Option (List String)
deriving DecidableEq

/-- The challenge after the script rewrote it for `navigator.credentials`:
binary fields decoded, user verification forced. -/
structure DecodedChallenge where
  userVerification : String
  challenge : List Nat
  userId : List Nat
  excludeCredentials : Option (List (List Nat))
deriving DecidableEq

/-- Raw result of the `navigator.credentials.create` ceremony. -/
structure CredentialPk where
  id : String
  rawId : List Nat
  attestationObject : List Nat
  clientDataJSON : List Nat
  typ : String
deriving DecidableEq

/-- Ceremony result re-encoded to text-safe form for transmission. -/
structure CredentialEncoded where
  id : String
  rawId : String
  attestationObject : String
  clientDataJSON : String
  typ : String
deriving DecidableEq

/-- Lines 276-288 of the script: force user verification to `required` and
decode every binary field from text-safe form. -/
def decodeChallenge (c : PublicKeyChallenge) : DecodedChallenge :=
  { userVerification := "required"
    challenge := base64UrlSafeToArrBuf c.challenge
    userId := base64UrlSafeToArrBuf c.userId
    excludeCredentials := c.excludeCredentials.map (List.map base64UrlSafeToArrBuf) }

/-- Lines 294-306 of the script: re-encode the binary fields of the ceremony
result to text-safe form. -/
def encodeCredential (pk : CredentialPk) : CredentialEncoded :=
  { id := pk.id
    rawId := arrBufToBase64UrlSafe pk.rawId
    attestationObject := arrBufToBase64UrlSafe pk.attestationObject
    clientDataJSON := arrBufToBase64UrlSafe pk.clientDataJSON
    typ := pk.typ }

/-- Response of `webauthnRegStartAccReset`: HTTP status with the challenge
body (error body fields are only logged by the script). -/
structure RegStartResp where
  status : Nat
  publicKey : PublicKeyChallenge
deriving DecidableEq

/-- The network and platform-authenticator environment of one submission:
responses the outside world would give to each boundary call.
`createResult` is the platform create ceremony; `none` models a
rejection/cancellation (the JS promise throwing, which aborts the handler). -/
structure NetEnv where
  authStart : AuthStartResp
  resetResp : ResetResp
  regStart : RegStartResp
  createResult : DecodedChallenge → Option CredentialPk
  regFinishStatus : Nat

/-- One performed network call with its payload. -/
inductive NetCall where
  | authStart (userId : String) (purpose : String)
  | resetPw (userId : String) (password : String) (magicLinkId : String)
      (mfaCode : Option String)
  | regStart (userId : String) (passkeyName : String) (magicLinkId : String)
  | regFinish (userId : String) (passkeyName : String) (data : CredentialEncoded)
      (magicLinkId : String)
deriving DecidableEq

def isResetCall : NetCall → Bool
  | NetCall.resetPw _ _ _ _ => true
  | _ => false

/-- The mutable page bindings touched by the submission flow. -/
structure PageState where
  err : String
  isLoading : Bool
  formValues : FormValues
  formErrors : List (String × String)
  webauthnData : Option AuthStartResp
  redirectUri : Option String
  success : Bool
deriving DecidableEq

/-- The `schemaPassword` yup schema (lines 424-427): both `password` and
`passwordConfirm` required; an empty string fails `required`. -/
def schemaPasswordValidate (t : I18n) (fv : FormValues) : List (String × String) :=
  (if fv.password = "" then [("password", t.required)] else [])
    ++ (if fv.passwordConfirm = "" then [("passwordConfirm", t.required)] else [])

/-- The `schemaPasskey` yup schema (lines 419-423): `passkeyName` required
and matching `REGEX_NAME` (from `utils/constants.js`, not in the examined
sources; the pattern is an opaque parameter `regexName`). -/
def schemaPasskeyValidate (t : I18n) (regexName : String → Bool)
    (fv : FormValues) : List (String × String) :=
  if fv.passkeyName = "" then [("passkeyName", t.required)]
  else if regexName fv.passkeyName = false then [("passkeyName", t.passkeyNameErr)]
  else []

/-- `onWebauthnError` (lines 404-408): discard the in-flight assertion data
and surface the generic registration error. -/
def onWebauthnError (t : I18n) (s : PageState) : PageState :=
  { s with webauthnData := none, err := t.errorReg }

/-- `onSubmitFinish` (lines 376-402): the gated reset call itself.  Sets the
loading flag, performs `resetPassword`, on `ok` clears the error and form,
stores the `Location` header and enters success; otherwise surfaces the body
message.  The loading flag is cleared on both branches. -/
def onSubmitFinish (userId magicLinkId : String) (mfaCode : Option String)
    (env : NetEnv) (s : PageState) : PageState × List NetCall :=
  let s1 := { s with isLoading := true }
  let call := NetCall.resetPw userId s1.formValues.password magicLinkId mfaCode
  if env.resetResp.ok then
    ({ s1 with
        err := ""
        formValues := { passkeyName := "", password := "", passwordConfirm := "" }
        redirectUri := env.resetResp.location
        success := true
        isLoading := false }, [call])
  else
    ({ s1 with err := env.resetResp.message, isLoading := false }, [call])

/-- `passwordReset` (lines 329-374): schema validation, the policy-acceptance
gate, the 256 hard cap, the match check, then either the MFA step-up
(`webauthnAuthStart` with the identity correlation check) or directly
`onSubmitFinish`. -/
def passwordReset (t : I18n) (userId magicLinkId : String)
    (accepted : Bool) (isMfa : Bool) (env : NetEnv) (s : PageState) :
    PageState × List NetCall :=
  let errs := schemaPasswordValidate t s.formValues
  if errs ≠ [] then ({ s with formErrors := errs }, [])
  else
    let s1 := { s with formErrors := [] }
    if accepted = false then (s1, [])
    else if 256 < s1.formValues.password.length then
      ({ s1 with err := "max 256" }, [])
    else if s1.formValues.password ≠ s1.formValues.passwordConfirm then
      ({ s1 with err := t.passwordNoMatch }, [])
    else
      let s2 := { s1 with err := "" }
      if isMfa then
        let call := NetCall.authStart userId "PasswordReset"
        if env.authStart.ok = false then
          ({ s2 with err := env.authStart.message, isLoading := false }, [call])
        else if env.authStart.user_id ≠ userId then
          ({ s2 with
              err := "MFA user ID does not match - this should never happen"
              isLoading := false }, [call])
        else ({ s2 with webauthnData := some env.authStart }, [call])
      else onSubmitFinish userId magicLinkId none env s2

/-- `handleRegisterPasskey` (lines 250-327): passkey enrollment.  Clears the
error, validates the schema, enforces the minimum name length, then runs
`webauthnRegStartAccReset` → decode → create ceremony → encode →
`webauthnRegFinishAccReset`; a 201 clears the form and enters success, any
other failure goes through `onWebauthnError` (a throwing ceremony aborts the
handler, leaving the state as it was). -/
def handleRegisterPasskey (t : I18n) (regexName : String → Bool)
    (userId magicLinkId : String) (env : NetEnv) (s : PageState) :
    PageState × List NetCall :=
  let s0 := { s with err := "" }
  let errs := schemaPasskeyValidate t regexName s0.formValues
  if errs ≠ [] then ({ s0 with formErrors := errs }, [])
  else
    let s1 := { s0 with formErrors := [] }
    let passkeyName := s1.formValues.passkeyName
    if passkeyName.length < 2 then ({ s1 with err := t.passkeyNameErr }, [])
    else
      let startCall := NetCall.regStart userId passkeyName magicLinkId
      if env.regStart.status = 200 then
        match env.createResult (decodeChallenge env.regStart.publicKey) with
        | none => (s1, [startCall])
        | some pk =>
          let finCall := NetCall.regFinish userId passkeyName (encodeCredential pk)
              magicLinkId
          if env.regFinishStatus = 201 then
            ({ s1 with
                formValues := { passkeyName := "", password := "", passwordConfirm := "" }
                success := true }, [startCall, finCall])
          else (onWebauthnError t s1, [startCall, finCall])
      else (onWebauthnError t s1, [startCall])

/-- Outcome of the user-mediated assertion ceremony run by the
`WebauthnRequest` component when `webauthnData` is set. -/
inductive CeremonyOutcome where
  | ok (code : String)
  | failed
deriving DecidableEq

/-- The ceremony callbacks: `onWebauthnSuccess` (lines 410-415) discards the
assertion data and finishes with the one-time code; `onWebauthnError` handles
failure.  Without pending `webauthnData` no ceremony runs. -/
def runCeremony (t : I18n) (userId magicLinkId : String)
    (outcome : CeremonyOutcome) (env : NetEnv) (s : PageState) :
    PageState × List NetCall :=
  match s.webauthnData with
  | none => (s, [])
  | some _ =>
    match outcome with
    | CeremonyOutcome.ok code =>
      onSubmitFinish userId magicLinkId (some code) env { s with webauthnData := none }
    | CeremonyOutcome.failed => (onWebauthnError t s, [])

/-- One whole password-reset submission attempt: `passwordReset` followed by
the assertion ceremony whenever one was started. -/
def submitFlow (t : I18n) (userId magicLinkId : String)
    (accepted : Bool) (isMfa : Bool) (outcome : CeremonyOutcome)
    (env : NetEnv) (s : PageState) : PageState × List NetCall :=
  let r1 := passwordReset t userId magicLinkId accepted isMfa env s
  let r2 := runCeremony t userId magicLinkId outcome env r1.1
  (r2.1, r1.2 ++ r2.2)

/-- `generate` (lines 238-248): fill both password fields with a generated
password of length `max(length_min, 24)`. -/
def generate (policy : PasswordPolicy) (rand : Nat → Nat) (s : PageState) :
    PageState :=
  let len := if 24 < policy.length_min then policy.length_min else 24
  let pwd := generatePassword len policy.include_lower_case
      policy.include_upper_case policy.include_digits policy.include_special rand
  { s with formValues :=
      { s.formValues with password := pwd, passwordConfirm := pwd } }

/-- The reactive success block (lines 445-455): once `success` is set, a
navigation is scheduled after 5000 ms; a JS-truthy `redirectUri` (non-null
and non-empty) wins over the default account page. -/
def navTarget (redirectUri : Option String) : String :=
  match redirectUri with
  | some uri => if uri = "" then "/auth/v1/account" else uri
  | none => "/auth/v1/account"

/-- Scheduled navigation on success: delay in ms and target. -/
def successRedirect (success : Bool) (redirectUri : Option String) :
    Option (Nat × String) :=
  if success then some (5000, navTarget redirectUri) else none

/-! ## Event stream viewer (the first unnamed source file) -/

/-- The `es.onmessage` handler: a message with falsy data is ignored, else
the parsed event is prepended to `events.slice(-499)` (the last 499 entries
of the previous list). -/
def jsSliceLast {α : Type} (n : Nat) (l : List α) : List α :=
  l.drop (l.length - n)

def streamOnMessage {α : Type} (events : List α) (data : Option α) : List α :=
  match data with
  | none => events
  | some e => e :: jsSliceLast 499 events

/-- The event list after a whole sequence of stream messages, starting from
the empty list set in `es.onopen`. -/
def runStream {α : Type} (msgs : List (Option α)) : List α :=
  msgs.foldl streamOnMessage []

/-! ## Concrete fixtures for witnesses and counterexamples -/

def t0 : I18n :=
  { required := "required"
    passwordNoMatch := "Passwords do not match"
    passkeyNameErr := "bad passkey name"
    errorReg := "registration error" }

def pk0 : CredentialPk :=
  { id := "cred", rawId := [1, 2, 3], attestationObject := [4, 5]
    clientDataJSON := [6], typ := "public-key" }

def challenge0 : PublicKeyChallenge :=
  { userVerification := "preferred", challenge := "QQ", userId := "QQ"
    excludeCredentials := none }

def env0 : NetEnv :=
  { authStart := { ok := true, user_id := "u", message := "auth failed" }
    resetResp := { ok := true, location := none, message := "reset failed" }
    regStart := { status := 200, publicKey := challenge0 }
    createResult := fun _ => some pk0
    regFinishStatus := 201 }

def envMismatch : NetEnv :=
  { env0 with authStart := { ok := true, user_id := "other", message := "auth failed" } }

def envLocation : NetEnv :=
  { env0 with resetResp :=
      { ok := true, location := some "/auth/v1/account?x=1", message := "" } }

def s0 : PageState :=
  { err := ""
    isLoading := false
    formValues :=
      { passkeyName := "key1", password := "Abcdefg123!", passwordConfirm := "Abcdefg123!" }
    formErrors := []
    webauthnData := none
    redirectUri := none
    success := false }

def sMismatch : PageState :=
  { s0 with formValues := { passkeyName := "", password := "a", passwordConfirm := "b" } }

def sLong : PageState :=
  { s0 with formValues :=
      { passkeyName := ""
        password := String.mk (List.replicate 257 'a')
        passwordConfirm := String.mk (List.replicate 257 'a') } }

def pSmallMax : PasswordPolicy :=
  { length_min := 10, length_max := 20, include_lower_case := 1
    include_upper_case := 1, include_digits := 1, include_special := 1
    not_recently_used := 3 }

def pOk : PasswordPolicy :=
  { length_min := 10, length_max := 128, include_lower_case := 1
    include_upper_case := 1, include_digits := 1, include_special := 1
    not_recently_used := 3 }

/-! ## Helper lemmas -/

theorem b64ToBytes_bytesToB64 :
    ∀ l : List Nat, (∀ b ∈ l, b < 256) → b64ToBytes (bytesToB64 l) = l
  | [], _ => rfl
  | [a], h => by
    have ha : a < 256 := h a (by simp)
    simp only [bytesToB64, b64ToBytes, List.cons.injEq, and_true]
    omega
  | [a, b], h => by
    have ha : a < 256 := h a (by simp)
    have hb : b < 256 := h b (by simp)
    simp only [bytesToB64, b64ToBytes, List.cons.injEq, and_true]
    omega
  | a :: b :: c :: rest, h => by
    have ha : a < 256 := h a (by simp)
    have hb : b < 256 := h b (by simp)
    have hc : c < 256 := h c (by simp)
    have ih := b64ToBytes_bytesToB64 rest (fun x hx => h x (by simp [hx]))
    simp only [bytesToB64, b64ToBytes, List.cons.injEq]
    refine ⟨by omega, by omega, by omega, ih⟩

theorem bytesToB64_lt_64 :
    ∀ l : List Nat, (∀ b ∈ l, b < 256) → ∀ v ∈ bytesToB64 l, v < 64
  | [], _ => by simp [bytesToB64]
  | [a], h => by
    have ha : a < 256 := h a (by simp)
    simp only [bytesToB64, List.mem_cons, List.not_mem_nil, or_false]
    rintro v (rfl | rfl) <;> omega
  | [a, b], h => by
    have ha : a < 256 := h a (by simp)
    have hb : b < 256 := h b (by simp)
    simp only [bytesToB64, List.mem_cons, List.not_mem_nil, or_false]
    rintro v (rfl | rfl | rfl) <;> omega
  | a :: b :: c :: rest, h => by
    have ha : a < 256 := h a (by simp)
    have hb : b < 256 := h b (by simp)
    have hc : c < 256 := h c (by simp)
    have ih := bytesToB64_lt_64 rest (fun x hx => h x (by simp [hx]))
    simp only [bytesToB64, List.mem_cons]
    rintro v (rfl | rfl | rfl | rfl | hv)
    · omega
    · omega
    · omega
    · omega
    · exact ih v hv

theorem b64CharVal_valToB64Char : ∀ v < 64, b64CharVal (valToB64Char v) = v := by
  decide

theorem valToB64Char_mem_alphabet : ∀ v < 64, valToB64Char v ∈ b64Alphabet := by
  decide

/-- Decoding a text-safe encoded byte buffer returns the original bytes. -/
theorem base64_decode_encode (b : List Nat) (hb : ∀ x ∈ b, x < 256) :
    base64UrlSafeToArrBuf (arrBufToBase64UrlSafe b) = b := by
  show b64ToBytes (((bytesToB64 b).map valToB64Char).map b64CharVal) = b
  rw [List.map_map]
  have hcong : ∀ v ∈ bytesToB64 b, (b64CharVal ∘ valToB64Char) v = id v := fun v hv =>
    b64CharVal_valToB64Char v (bytesToB64_lt_64 b hb v hv)
  rw [List.map_congr_left hcong, List.map_id, b64ToBytes_bytesToB64 b hb]

theorem shuffleGo_perm (rand : Nat → Nat) :
    ∀ (n k : Nat) (l : List Char), l.length ≤ n → (shuffleGo rand n k l).Perm l
  | 0, _, l, h => by
    have : l = [] := List.length_eq_zero.mp (Nat.le_zero.mp h)
    subst this
    exact List.Perm.refl _
  | _ + 1, _, [], _ => by
    show List.Perm [] []
    exact List.Perm.refl _
  | n + 1, k, x :: xs, h => by
    show ((x :: xs).getD (rand k % (x :: xs).length) 'a' ::
      shuffleGo rand n (k + 1)
        ((x :: xs).take (rand k % (x :: xs).length)
          ++ (x :: xs).drop (rand k % (x :: xs).length + 1))).Perm (x :: xs)
    set l := x :: xs with hl
    have hlen : 0 < l.length := by rw [hl]; exact Nat.succ_pos _
    have hi : rand k % l.length < l.length := Nat.mod_lt _ hlen
    set i := rand k % l.length with hidef
    have hrest : (l.take i ++ l.drop (i + 1)).length = l.length - 1 := by
      rw [List.length_append, List.length_take, List.length_drop]
      omega
    have hih : (shuffleGo rand n (k + 1) (l.take i ++ l.drop (i + 1))).Perm
        (l.take i ++ l.drop (i + 1)) := by
      apply shuffleGo_perm rand n (k + 1)
      have hle : l.length ≤ n + 1 := h
      omega
    have hgetD : l.getD i 'a' = l[i] := List.getD_eq_getElem l 'a' hi
    have hsplit : l.take i ++ l[i] :: l.drop (i + 1) = l := by
      rw [← List.drop_eq_getElem_cons hi, List.take_append_drop]
    refine (List.Perm.cons _ hih).trans ?_
    rw [hgetD]
    conv_rhs => rw [← hsplit]
    exact List.perm_middle.symm

theorem shuffleGo_length (rand : Nat → Nat) (n k : Nat) (l : List Char)
    (h : l.length ≤ n) : (shuffleGo rand n k l).length = l.length :=
  (shuffleGo_perm rand n k l h).length_eq

theorem classSeed_length_le (count : Int) (chars : List Char) (r : Nat) :
    (classSeed count chars r).length ≤ 1 := by
  unfold classSeed
  split <;> simp

theorem classSeed_mem (count : Int) (chars : List Char) (r : Nat)
    (hc : 0 < count) (hne : chars ≠ []) :
    ∃ c ∈ classSeed count chars r, c ∈ chars := by
  unfold classSeed
  rw [if_pos hc]
  have hlen : 0 < chars.length := List.length_pos.mpr hne
  have hi : r % chars.length < chars.length := Nat.mod_lt _ hlen
  refine ⟨chars.getD (r % chars.length) 'a', by simp, ?_⟩
  rw [List.getD_eq_getElem chars 'a' hi]
  exact List.getElem_mem hi

theorem genSeeds_length_le (lc uc dg sp : Int) (rand : Nat → Nat) :
    (genSeeds lc uc dg sp rand).length ≤ 4 := by
  unfold genSeeds
  have h1 := classSeed_length_le lc lowerChars (rand 0)
  have h2 := classSeed_length_le uc upperChars (rand 1)
  have h3 := classSeed_length_le dg digitChars (rand 2)
  have h4 := classSeed_length_le sp specialChars (rand 3)
  simp only [List.length_append]
  omega

theorem genChars_perm (len : Nat) (lc uc dg sp : Int) (rand : Nat → Nat) :
    (genChars len lc uc dg sp rand).Perm
      (genSeeds lc uc dg sp rand ++ genFill len lc uc dg sp rand) :=
  shuffleGo_perm rand _ _ _ (Nat.le_refl _)

theorem genChars_length (len : Nat) (lc uc dg sp : Int) (rand : Nat → Nat)
    (h4 : 4 ≤ len) : (genChars len lc uc dg sp rand).length = len := by
  rw [(genChars_perm len lc uc dg sp rand).length_eq]
  have hseeds := genSeeds_length_le lc uc dg sp rand
  simp only [List.length_append, genFill, List.length_map, List.length_range]
  omega

theorem mem_genChars_of_mem_seeds (len : Nat) (lc uc dg sp : Int)
    (rand : Nat → Nat) (c : Char) (h : c ∈ genSeeds lc uc dg sp rand) :
    c ∈ genChars len lc uc dg sp rand :=
  ((genChars_perm len lc uc dg sp rand).mem_iff).mpr (List.mem_append_left _ h)

theorem genChars_has_lower (len : Nat) (lc uc dg sp : Int) (rand : Nat → Nat)
    (hc : 0 < lc) : ∃ c ∈ genChars len lc uc dg sp rand, c ∈ lowerChars := by
  obtain ⟨c, hc1, hc2⟩ := classSeed_mem lc lowerChars (rand 0) hc (by decide)
  exact ⟨c, mem_genChars_of_mem_seeds len lc uc dg sp rand c
    (by unfold genSeeds; simp only [List.mem_append]; tauto), hc2⟩

theorem genChars_has_upper (len : Nat) (lc uc dg sp : Int) (rand : Nat → Nat)
    (hc : 0 < uc) : ∃ c ∈ genChars len lc uc dg sp rand, c ∈ upperChars := by
  obtain ⟨c, hc1, hc2⟩ := classSeed_mem uc upperChars (rand 1) hc (by decide)
  exact ⟨c, mem_genChars_of_mem_seeds len lc uc dg sp rand c
    (by unfold genSeeds; simp only [List.mem_append]; tauto), hc2⟩

theorem genChars_has_digit (len : Nat) (lc uc dg sp : Int) (rand : Nat → Nat)
    (hc : 0 < dg) : ∃ c ∈ genChars len lc uc dg sp rand, c ∈ digitChars := by
  obtain ⟨c, hc1, hc2⟩ := classSeed_mem dg digitChars (rand 2) hc (by decide)
  exact ⟨c, mem_genChars_of_mem_seeds len lc uc dg sp rand c
    (by unfold genSeeds; simp only [List.mem_append]; tauto), hc2⟩

theorem genChars_has_special (len : Nat) (lc uc dg sp : Int) (rand : Nat → Nat)
    (hc : 0 < sp) : ∃ c ∈ genChars len lc uc dg sp rand, c ∈ specialChars := by
  obtain ⟨c, hc1, hc2⟩ := classSeed_mem sp specialChars (rand 3) hc (by decide)
  exact ⟨c, mem_genChars_of_mem_seeds len lc uc dg sp rand c
    (by unfold genSeeds; simp only [List.mem_append]; tauto), hc2⟩

theorem onSubmitFinish_isLoading (userId magicLinkId : String)
    (mfaCode : Option String) (env : NetEnv) (s : PageState) :
    (onSubmitFinish userId magicLinkId mfaCode env s).1.isLoading = false := by
  unfold onSubmitFinish
  split <;> rfl

theorem passwordReset_isLoading (t : I18n) (userId magicLinkId : String)
    (accepted isMfa : Bool) (env : NetEnv) (s : PageState)
    (h : s.isLoading = false) :
    (passwordReset t userId magicLinkId accepted isMfa env s).1.isLoading = false := by
  unfold passwordReset onSubmitFinish
  dsimp only
  repeat' split
  all_goals simp_all

theorem runCeremony_isLoading (t : I18n) (userId magicLinkId : String)
    (outcome : CeremonyOutcome) (env : NetEnv) (s : PageState)
    (h : s.isLoading = false) :
    (runCeremony t userId magicLinkId outcome env s).1.isLoading = false := by
  unfold runCeremony
  cases hw : s.webauthnData with
  | none => simpa using h
  | some d =>
    cases outcome with
    | ok code => simp [onSubmitFinish_isLoading]
    | failed => simpa [onWebauthnError] using h

theorem handleRegisterPasskey_isLoading (t : I18n) (regexName : String → Bool)
    (userId magicLinkId : String) (env : NetEnv) (s : PageState)
    (h : s.isLoading = false) :
    (handleRegisterPasskey t regexName userId magicLinkId env s).1.isLoading = false := by
  unfold handleRegisterPasskey onWebauthnError
  dsimp only
  repeat' split
  all_goals simp_all

/-! ## Claim theorems -/

/-- C9: the event viewer's in-memory event list never exceeds 500 entries.
On every received stream message the new list is the new event prepended to
the last at-most-499 previous events, so after every sequence of messages the
list length is bounded by 500. -/
theorem events_bounded_500 {α : Type} (msgs : List (Option α)) (e : α)
    (l : List α) :
    (runStream msgs).length ≤ 500 ∧
    streamOnMessage l (some e) = e :: jsSliceLast 499 l ∧
    (jsSliceLast 499 l).length ≤ 499 := by
  refine ⟨?_, rfl, ?_⟩
  · have step : ∀ (d : Option α) (m : List α), m.length ≤ 500 →
        (streamOnMessage m d).length ≤ 500 := by
      intro d m hm
      cases d with
      | none => simpa using hm
      | some x =>
        simp only [streamOnMessage, jsSliceLast, List.length_cons, List.length_drop]
        omega
    have aux : ∀ (ms : List (Option α)) (m : List α), m.length ≤ 500 →
        (ms.foldl streamOnMessage m).length ≤ 500 := by
      intro ms
      induction ms with
      | nil => intro m hm; simpa using hm
      | cons d ds ih =>
        intro m hm
        exact ih _ (step d m hm)
    simpa [runStream] using aux msgs [] (by simp)
  · simp only [jsSliceLast, List.length_drop]
    omega

/-- C10: when the policy-acceptance flag is false, a submission that passes
schema validation returns right after the schema check: no network call, the
visible error message untouched, and the password form fields untouched. -/
theorem accepted_false_silent_noop (t : I18n) (userId magicLinkId : String)
    (isMfa : Bool) (env : NetEnv) (s : PageState)
    (hschema : schemaPasswordValidate t s.formValues = []) :
    (passwordReset t userId magicLinkId false isMfa env s).1.err = s.err ∧
    (passwordReset t userId magicLinkId false isMfa env s).1.formValues = s.formValues ∧
    (passwordReset t userId magicLinkId false isMfa env s).2 = [] := by
  unfold passwordReset
  simp [hschema]

theorem accepted_false_silent_noop_witness :
    schemaPasswordValidate t0 s0.formValues = [] ∧
    ((passwordReset t0 "u" "ml" false false env0 s0).1.err = s0.err ∧
      (passwordReset t0 "u" "ml" false false env0 s0).1.formValues = s0.formValues ∧
      (passwordReset t0 "u" "ml" false false env0 s0).2 = []) :=
  ⟨by decide, accepted_false_silent_noop t0 "u" "ml" false env0 s0 (by decide)⟩

/-- C7: on every exit path of a submission attempt (success, validation
failure, policy failure, mismatch, ceremony failure, non-2xx response) the
loading indicator is false when the attempt ends, both for the password-reset
flow and for passkey enrollment. -/
theorem isLoading_cleared_on_all_exits (t : I18n) (regexName : String → Bool)
    (userId magicLinkId : String) (accepted isMfa : Bool)
    (outcome : CeremonyOutcome) (env : NetEnv) (s : PageState)
    (h : s.isLoading = false) :
    (submitFlow t userId magicLinkId accepted isMfa outcome env s).1.isLoading = false ∧
    (handleRegisterPasskey t regexName userId magicLinkId env s).1.isLoading = false := by
  constructor
  · unfold submitFlow
    exact runCeremony_isLoading t userId magicLinkId outcome env _
      (passwordReset_isLoading t userId magicLinkId accepted isMfa env s h)
  · exact handleRegisterPasskey_isLoading t regexName userId magicLinkId env s h

theorem isLoading_cleared_on_all_exits_witness :
    s0.isLoading = false ∧
    ((submitFlow t0 "u" "ml" true true (CeremonyOutcome.ok "code") env0 s0).1.isLoading
        = false ∧
      (handleRegisterPasskey t0 (fun _ => true) "u" "ml" env0 s0).1.isLoading = false) :=
  ⟨rfl, isLoading_cleared_on_all_exits t0 (fun _ => true) "u" "ml" true true
    (CeremonyOutcome.ok "code") env0 s0 rfl⟩

/-- C5: a failed or cancelled authenticator ceremony (`onWebauthnError`)
leaves the form fields untouched, while every successful terminal submission
(an `ok` response in `onSubmitFinish`, or a 201 from
`webauthnRegFinishAccReset` in `handleRegisterPasskey`) resets all three form
fields to the empty string. -/
theorem ceremony_error_frame_and_success_clears :
    (∀ (t : I18n) (s : PageState), (onWebauthnError t s).formValues = s.formValues) ∧
    (∀ (userId magicLinkId : String) (mfaCode : Option String) (env : NetEnv)
        (s : PageState), env.resetResp.ok = true →
      (onSubmitFinish userId magicLinkId mfaCode env s).1.formValues =
        { passkeyName := "", password := "", passwordConfirm := "" }) ∧
    (∀ (t : I18n) (regexName : String → Bool) (userId magicLinkId : String)
        (env : NetEnv) (s : PageState) (pk : CredentialPk),
      schemaPasskeyValidate t regexName s.formValues = [] →
      2 ≤ s.formValues.passkeyName.length →
      env.regStart.status = 200 →
      env.createResult (decodeChallenge env.regStart.publicKey) = some pk →
      env.regFinishStatus = 201 →
      (handleRegisterPasskey t regexName userId magicLinkId env s).1.formValues =
        { passkeyName := "", password := "", passwordConfirm := "" }) := by
  refine ⟨fun t s => rfl, ?_, ?_⟩
  · intro userId magicLinkId mfaCode env s hok
    unfold onSubmitFinish
    simp [hok]
  · intro t regexName userId magicLinkId env s pk hschema hlen hstart hpk hfin
    unfold handleRegisterPasskey
    dsimp only
    simp [hschema, hstart, hpk, hfin, Nat.not_lt.mpr hlen]

theorem ceremony_error_frame_and_success_clears_witness :
    ((onWebauthnError t0 s0).formValues = s0.formValues) ∧
    (env0.resetResp.ok = true ∧
      (onSubmitFinish "u" "ml" none env0 s0).1.formValues =
        { passkeyName := "", password := "", passwordConfirm := "" }) ∧
    (schemaPasskeyValidate t0 (fun _ => true) s0.formValues = [] ∧
      2 ≤ s0.formValues.passkeyName.length ∧
      env0.regStart.status = 200 ∧
      env0.createResult (decodeChallenge env0.regStart.publicKey) = some pk0 ∧
      env0.regFinishStatus = 201 ∧
      (handleRegisterPasskey t0 (fun _ => true) "u" "ml" env0 s0).1.formValues =
        { passkeyName := "", password := "", passwordConfirm := "" }) :=
  ⟨ceremony_error_frame_and_success_clears.1 t0 s0,
    ⟨rfl, ceremony_error_frame_and_success_clears.2.1 "u" "ml" none env0 s0 rfl⟩,
    ⟨by decide, by decide, rfl, rfl,
      rfl, ceremony_error_frame_and_success_clears.2.2 t0 (fun _ => true) "u" "ml"
        env0 s0 pk0 (by decide) (by decide) rfl rfl rfl⟩⟩

/-- C6 counterexample: when the reset response carries a `Location` header
whose value is the empty string, the header is present but the scheduled
navigation goes to the default landing page, not to the carried (empty)
URI — JS truthiness treats the empty string like an absent header. -/
theorem success_redirect_empty_location_counterexample :
    successRedirect true (some "") = some (5000, "/auth/v1/account") ∧
    successRedirect true (some "") ≠ some (5000, "") := by
  constructor
  · rfl
  · decide

/-- C6 amended: after a successful reset response, a navigation is scheduled
after exactly 5000 ms to the URI carried by the `Location` header when that
header is present with a non-empty value, and to `/auth/v1/account` otherwise
(header absent or empty). -/
theorem success_redirect_amended (userId magicLinkId : String)
    (mfaCode : Option String) (env : NetEnv) (s : PageState)
    (hok : env.resetResp.ok = true) :
    (onSubmitFinish userId magicLinkId mfaCode env s).1.success = true ∧
    successRedirect (onSubmitFinish userId magicLinkId mfaCode env s).1.success
        (onSubmitFinish userId magicLinkId mfaCode env s).1.redirectUri =
      some (5000, navTarget env.resetResp.location) ∧
    (∀ uri : String, uri ≠ "" → navTarget (some uri) = uri) ∧
    navTarget none = "/auth/v1/account" := by
  refine ⟨?_, ?_, ?_, rfl⟩
  · unfold onSubmitFinish
    simp [hok]
  · unfold onSubmitFinish
    simp [hok, successRedirect]
  · intro uri huri
    simp [navTarget, huri]

theorem success_redirect_amended_witness :
    envLocation.resetResp.ok = true ∧
    ((onSubmitFinish "u" "ml" none envLocation s0).1.success = true ∧
      successRedirect (onSubmitFinish "u" "ml" none envLocation s0).1.success
          (onSubmitFinish "u" "ml" none envLocation s0).1.redirectUri =
        some (5000, navTarget envLocation.resetResp.location) ∧
      (∀ uri : String, uri ≠ "" → navTarget (some uri) = uri) ∧
      navTarget none = "/auth/v1/account") ∧
    navTarget envLocation.resetResp.location = "/auth/v1/account?x=1" :=
  ⟨rfl, success_redirect_amended "u" "ml" none envLocation s0 rfl, by decide⟩

/-- C1: for a password-reset submission with MFA flagged active where the
auth-start response reports a user id different from the session identity,
the gated reset call (`onSubmitFinish` / `resetPassword`) is never performed
and the flow fails with the hard identity-mismatch error, regardless of the
outcome the assertion ceremony would have had. -/
theorem mfa_identity_mismatch_blocks_reset (t : I18n) (userId magicLinkId : String)
    (outcome : CeremonyOutcome) (env : NetEnv) (s : PageState)
    (hW : s.webauthnData = none)
    (hok : env.authStart.ok = true)
    (hmm : env.authStart.user_id ≠ userId)
    (hschema : schemaPasswordValidate t s.formValues = [])
    (hcap : s.formValues.password.length ≤ 256)
    (hmatch : s.formValues.password = s.formValues.passwordConfirm) :
    (∀ c ∈ (submitFlow t userId magicLinkId true true outcome env s).2,
      isResetCall c = false) ∧
    (submitFlow t userId magicLinkId true true outcome env s).1.err =
      "MFA user ID does not match - this should never happen" := by
  have hcap2 : ¬(256 < s.formValues.passwordConfirm.length) :=
    Nat.not_lt.mpr (hmatch ▸ hcap)
  unfold submitFlow passwordReset runCeremony
  simp [hschema, hok, hmm, hmatch, hW, Nat.not_lt.mpr hcap, hcap2, isResetCall]

theorem mfa_identity_mismatch_blocks_reset_witness :
    (s0.webauthnData = none ∧ envMismatch.authStart.ok = true ∧
      envMismatch.authStart.user_id ≠ "u" ∧
      schemaPasswordValidate t0 s0.formValues = [] ∧
      s0.formValues.password.length ≤ 256 ∧
      s0.formValues.password = s0.formValues.passwordConfirm) ∧
    ((∀ c ∈ (submitFlow t0 "u" "ml" true true CeremonyOutcome.failed
        envMismatch s0).2, isResetCall c = false) ∧
      (submitFlow t0 "u" "ml" true true CeremonyOutcome.failed
          envMismatch s0).1.err =
        "MFA user ID does not match - this should never happen") :=
  ⟨⟨rfl, rfl, by decide, by decide, by decide, rfl⟩,
    mfa_identity_mismatch_blocks_reset t0 "u" "ml" CeremonyOutcome.failed
      envMismatch s0 rfl rfl (by decide) (by decide) (by decide) rfl⟩

/-- C2 counterexample: a form state whose passwords differ but where the
policy-acceptance flag is false: `passwordReset` makes no network call, but
it reports no password-mismatch error either (the visible error stays
empty), falsifying the claimed error report for every differing pair. -/
theorem password_mismatch_error_counterexample :
    sMismatch.formValues.password ≠ sMismatch.formValues.passwordConfirm ∧
    (passwordReset t0 "u" "ml" false false env0 sMismatch).1.err = "" ∧
    (passwordReset t0 "u" "ml" false false env0 sMismatch).1.err ≠
      t0.passwordNoMatch := by
  decide

/-- C2 amended: whenever the two password fields differ, `passwordReset`
performs no network call; and when additionally schema validation passes,
the policy is accepted, and the password respects the 256 hard cap, the
password-mismatch error is reported. -/
theorem password_mismatch_no_network_amended (t : I18n)
    (userId magicLinkId : String) (accepted isMfa : Bool) (env : NetEnv)
    (s : PageState)
    (hne : s.formValues.password ≠ s.formValues.passwordConfirm) :
    (passwordReset t userId magicLinkId accepted isMfa env s).2 = [] ∧
    (schemaPasswordValidate t s.formValues = [] → accepted = true →
      s.formValues.password.length ≤ 256 →
      (passwordReset t userId magicLinkId accepted isMfa env s).1.err =
        t.passwordNoMatch) := by
  unfold passwordReset
  dsimp only
  constructor
  · repeat' split
    all_goals simp_all
  · intro hschema hacc hcap
    simp [hschema, hacc, hne, Nat.not_lt.mpr hcap]

theorem password_mismatch_no_network_amended_witness :
    sMismatch.formValues.password ≠ sMismatch.formValues.passwordConfirm ∧
    ((passwordReset t0 "u" "ml" true false env0 sMismatch).2 = [] ∧
      (schemaPasswordValidate t0 sMismatch.formValues = [] → true = true →
        sMismatch.formValues.password.length ≤ 256 →
        (passwordReset t0 "u" "ml" true false env0 sMismatch).1.err =
          t0.passwordNoMatch)) :=
  ⟨by decide, password_mismatch_no_network_amended t0 "u" "ml" true false env0
    sMismatch (by decide)⟩

set_option maxRecDepth 4000 in
/-- C4 counterexample: a submission whose password is 257 characters long
but where the policy-acceptance flag is false: no network call happens, yet
`passwordReset` sets no error at all — the claimed unconditional error report
on over-long passwords fails. -/
theorem hard_cap_silent_counterexample :
    256 < sLong.formValues.password.length ∧
    (passwordReset t0 "u" "ml" false false env0 sLong).2 = [] ∧
    (passwordReset t0 "u" "ml" false false env0 sLong).1.err = "" := by
  decide

/-- C4 amended: a password longer than 256 characters never reaches the
network boundary, independently of the loaded policy (`passwordReset` does
not consult the policy at all); and when schema validation passes and the
policy is accepted, the error `max 256` is set. -/
theorem hard_cap_no_network_amended (t : I18n) (userId magicLinkId : String)
    (accepted isMfa : Bool) (env : NetEnv) (s : PageState)
    (hlen : 256 < s.formValues.password.length) :
    (passwordReset t userId magicLinkId accepted isMfa env s).2 = [] ∧
    (schemaPasswordValidate t s.formValues = [] → accepted = true →
      (passwordReset t userId magicLinkId accepted isMfa env s).1.err =
        "max 256") := by
  unfold passwordReset
  dsimp only
  constructor
  · repeat' split
    all_goals simp_all
  · intro hschema hacc
    simp [hschema, hacc, hlen]

set_option maxRecDepth 4000 in
theorem hard_cap_no_network_amended_witness :
    256 < sLong.formValues.password.length ∧
    ((passwordReset t0 "u" "ml" true false env0 sLong).2 = [] ∧
      (schemaPasswordValidate t0 sLong.formValues = [] → true = true →
        (passwordReset t0 "u" "ml" true false env0 sLong).1.err = "max 256")) :=
  ⟨by decide, hard_cap_no_network_amended t0 "u" "ml" true false env0 sLong
    (by decide)⟩

/-- C8 counterexample: the string `AB` lies entirely in the text-safe
alphabet, yet decoding and re-encoding it yields `AA` (its trailing
sub-8-bit payload is dropped), so the round trip is not the identity on
every alphabet string. -/
theorem b64_roundtrip_counterexample :
    (∀ c ∈ ("AB" : String).data, c ∈ b64Alphabet) ∧
    arrBufToBase64UrlSafe (base64UrlSafeToArrBuf "AB") = "AA" ∧
    arrBufToBase64UrlSafe (base64UrlSafeToArrBuf "AB") ≠ "AB" := by
  refine ⟨by decide, by decide, by decide⟩

/-- C8 amended: for every string that is the text-safe encoding of some byte
sequence (the canonical forms actually occurring in challenge envelopes and
credential results), decoding to raw binary and re-encoding is the identity,
and such strings lie in the text-safe alphabet. -/
theorem b64_roundtrip_amended (s : String)
    (h : ∃ b : List Nat, (∀ x ∈ b, x < 256) ∧ s = arrBufToBase64UrlSafe b) :
    arrBufToBase64UrlSafe (base64UrlSafeToArrBuf s) = s ∧
    ∀ c ∈ s.data, c ∈ b64Alphabet := by
  obtain ⟨b, hb, rfl⟩ := h
  refine ⟨by rw [base64_decode_encode b hb], ?_⟩
  intro c hc
  have hc2 : c ∈ (bytesToB64 b).map valToB64Char := hc
  obtain ⟨v, hv, rfl⟩ := List.mem_map.mp hc2
  exact valToB64Char_mem_alphabet v (bytesToB64_lt_64 b hb v hv)

theorem b64_roundtrip_amended_witness :
    ((∀ x ∈ ([65] : List Nat), x < 256) ∧
      ("QQ" : String) = arrBufToBase64UrlSafe [65]) ∧
    (arrBufToBase64UrlSafe (base64UrlSafeToArrBuf "QQ") = "QQ" ∧
      ∀ c ∈ ("QQ" : String).data, c ∈ b64Alphabet) :=
  ⟨⟨by decide, by decide⟩, b64_roundtrip_amended "QQ" ⟨[65], by decide, by decide⟩⟩

theorem hasCharFrom_eq_true (l chars : List Char) (h : ∃ c ∈ l, c ∈ chars) :
    hasCharFrom l chars = true := by
  obtain ⟨c, hcl, hcc⟩ := h
  unfold hasCharFrom
  rw [List.any_eq_true]
  exact ⟨c, hcl, List.elem_iff.mpr hcc⟩

set_option maxRecDepth 4000 in
/-- C3 counterexample: for the policy `min=10, max=20` (all classes required)
the generator still produces a password of length `max(10, 24) = 24`, which
violates the policy's `lengthMax`: validation reports a length violation, so
`validate(generate(P), P)` is not violation-free for every policy `P`. -/
theorem generate_violates_small_max_counterexample :
    (generate pSmallMax (fun _ => 0) s0).formValues.password.length =
      max pSmallMax.length_min 24 ∧
    validatePolicy (generate pSmallMax (fun _ => 0) s0).formValues.password
      pSmallMax = [PolicyRule.tooLong] := by
  refine ⟨by decide, by decide⟩

/-- C3 amended: for every policy whose `lengthMax` admits the generated
length — `max(lengthMin, 24) ≤ lengthMax` — and every randomness stream, the
generated password has length `max(lengthMin, 24)` and passes policy
validation with no violated rules (length bounds and one character from
every class whose policy count is positive). -/
theorem generate_satisfies_policy_amended (p : PasswordPolicy)
    (rand : Nat → Nat) (s : PageState)
    (hmax : max p.length_min 24 ≤ p.length_max) :
    (generate p rand s).formValues.password.length = max p.length_min 24 ∧
    validatePolicy (generate p rand s).formValues.password p = [] := by
  have hlen_eq : (if 24 < p.length_min then p.length_min else 24) =
      max p.length_min 24 := by
    split <;> omega
  have hdata : (generate p rand s).formValues.password.data =
      genChars (max p.length_min 24) p.include_lower_case p.include_upper_case
        p.include_digits p.include_special rand := by
    unfold generate generatePassword
    dsimp only
    rw [hlen_eq]
  have hlen : (generate p rand s).formValues.password.length =
      max p.length_min 24 := by
    have hsl : (generate p rand s).formValues.password.length =
        (generate p rand s).formValues.password.data.length := rfl
    rw [hsl, hdata, genChars_length _ _ _ _ _ _ (by omega)]
  refine ⟨hlen, ?_⟩
  unfold validatePolicy
  rw [if_neg (by omega), if_neg (by omega),
    if_neg (by
      rintro ⟨h1, h2⟩
      refine h2 ?_
      rw [hdata]
      exact hasCharFrom_eq_true _ _ (genChars_has_lower _ _ _ _ _ rand h1)),
    if_neg (by
      rintro ⟨h1, h2⟩
      refine h2 ?_
      rw [hdata]
      exact hasCharFrom_eq_true _ _ (genChars_has_upper _ _ _ _ _ rand h1)),
    if_neg (by
      rintro ⟨h1, h2⟩
      refine h2 ?_
      rw [hdata]
      exact hasCharFrom_eq_true _ _ (genChars_has_digit _ _ _ _ _ rand h1)),
    if_neg (by
      rintro ⟨h1, h2⟩
      refine h2 ?_
      rw [hdata]
      exact hasCharFrom_eq_true _ _ (genChars_has_special _ _ _ _ _ rand h1))]
  rfl

set_option maxRecDepth 4000 in
theorem generate_satisfies_policy_amended_witness :
    max pOk.length_min 24 ≤ pOk.length_max ∧
    ((generate pOk (fun _ => 0) s0).formValues.password.length =
        max pOk.length_min 24 ∧
      validatePolicy (generate pOk (fun _ => 0) s0).formValues.password pOk
        = []) :=
  ⟨by decide, generate_satisfies_policy_amended pOk (fun _ => 0) s0 (by decide)⟩

end Rauthy
